import Mathlib

/-!
Verification development for the rebirth-http interceptor pipeline and
declarative request builder. The definitions below are shallow embeddings
of the functions in src/src/rebirth-http.ts (the HttpClient generation of
the library); the older options-based generation in src/unnamed/part_000
is noted in comments where the two differ.
-/

set_option autoImplicit false

/-- Model of an outgoing request: the url together with the header
multimap, which is the ordered list of header name value pairs. -/
structure HttpRequest where
  url : String
  headers : List (String × String)
  deriving Repr, DecidableEq

/-- Model of an HttpEvent: either a full HttpResponse carrying its ok
flag and body, or one of the other event kinds of the transport. -/
inductive HttpEvent where
  | response (ok : Bool) (body : String) : HttpEvent
  | sent : HttpEvent
  deriving Repr, DecidableEq

/-- Model of the RebirthHttpInterceptor interface: a pair of optional
transform functions. A request transform returns a new request or
nothing (undefined, modelled by Option); a response transform also
receives the optional originating request. -/
structure RebirthHttpInterceptor where
  request : Option (HttpRequest → Option HttpRequest)
  response : Option (HttpEvent → Option HttpRequest → Option HttpEvent)

/-- Translation of RebirthHttpProvider.handleRequest: keep the
interceptors that have a request function, then reduce left to right,
replacing the accumulator with the result of the request function when
it returns something and keeping the accumulator otherwise. -/
def handleRequest (interceptors : List RebirthHttpInterceptor)
    (req : HttpRequest) : HttpRequest :=
  (interceptors.filter (fun item => item.request.isSome)).foldl
    (fun acc item =>
      match item.request with
      | some f => (f acc).getD acc
      | none => acc)
    req

/-- Translation of RebirthHttpProvider.handleResponse: keep the
interceptors that have a response function, reverse that fresh list,
then reduce, replacing the accumulator with the result of the response
function when it returns something and with the ORIGINAL response
argument otherwise. -/
def handleResponse (interceptors : List RebirthHttpInterceptor)
    (response : HttpEvent) (request : Option HttpRequest) : HttpEvent :=
  ((interceptors.filter (fun item => item.response.isSome)).reverse).foldl
    (fun httpEvent item =>
      match item.response with
      | some f => (f httpEvent request).getD response
      | none => httpEvent)
    response

/-- Statement of the request pipeline the way the spec words it: walk
the registration list front to back; an interceptor with a request
function replaces the accumulator by its output, or keeps the
accumulator when the output is nothing. -/
def handleRequestSpecFold : List RebirthHttpInterceptor → HttpRequest → HttpRequest
  | [], acc => acc
  | item :: rest, acc =>
      handleRequestSpecFold rest
        (match item.request with
         | some f => (f acc).getD acc
         | none => acc)

/-- Statement of the response pipeline the way the spec words it: the
later registered interceptors run first (reverse registration order),
and whenever a response function returns nothing the accumulator is
replaced by the ORIGINAL response, not by the running accumulator. -/
def handleResponseSpecFold (original : HttpEvent) (request : Option HttpRequest) :
    List RebirthHttpInterceptor → HttpEvent → HttpEvent
  | [], acc => acc
  | item :: rest, acc =>
      match item.response with
      | some f =>
          (f (handleResponseSpecFold original request rest acc) request).getD original
      | none => handleResponseSpecFold original request rest acc

/-- C2: handleRequest folds left to right over the interceptors that
have a request function, in registration order, each consuming the
previous accumulator; a request function that returns nothing leaves
the accumulator unchanged, and the final accumulator is returned. -/
theorem claim_C2 (interceptors : List RebirthHttpInterceptor) (req : HttpRequest) :
    handleRequest interceptors req = handleRequestSpecFold interceptors req := by
  induction interceptors generalizing req with
  | nil => rfl
  | cons item rest ih =>
      cases hreq : item.request with
      | none =>
          simp only [handleRequest, handleRequestSpecFold, List.filter_cons, hreq,
            Option.isSome_none, Bool.false_eq_true, if_false]
          exact ih req
      | some f =>
          simp only [handleRequest, handleRequestSpecFold, List.filter_cons, hreq,
            Option.isSome_some, if_true, List.foldl_cons]
          exact ih ((f req).getD req)

/-- C1: handleResponse folds over the interceptors that have a response
function in reverse registration order, and whenever a response function
returns nothing the accumulator is replaced by the ORIGINAL response
passed to handleResponse, not by the running accumulator. -/
theorem claim_C1 (interceptors : List RebirthHttpInterceptor)
    (response : HttpEvent) (request : Option HttpRequest) :
    handleResponse interceptors response request =
      handleResponseSpecFold response request interceptors response := by
  induction interceptors with
  | nil => rfl
  | cons item rest ih =>
      cases hres : item.response with
      | none =>
          simp only [handleResponse, handleResponseSpecFold, List.filter_cons, hres,
            Option.isSome_none, Bool.false_eq_true, if_false]
          exact ih
      | some f =>
          simp only [handleResponse, handleResponseSpecFold, List.filter_cons, hres,
            Option.isSome_some, if_true, List.reverse_cons, List.foldl_append,
            List.foldl_cons, List.foldl_nil]
          rw [← handleResponse, ih]

/-- Model of the mutable provider: its only field is the registered
interceptor list. -/
structure RebirthHttpProviderState where
  interceptors : List RebirthHttpInterceptor

/-- Translation of RebirthHttpProvider.getInterceptors. -/
def getInterceptors (s : RebirthHttpProviderState) : List RebirthHttpInterceptor :=
  s.interceptors

/-- State passing form of handleRequest. The source reads
this.interceptors, filters it (Array.prototype.filter allocates a fresh
array) and reduces; it never assigns the field, so the state component
is returned unchanged. -/
def handleRequestState (s : RebirthHttpProviderState) (req : HttpRequest) :
    HttpRequest × RebirthHttpProviderState :=
  (handleRequest s.interceptors req, s)

/-- State passing form of handleResponse. The reverse call in the source
mutates only the fresh array produced by filter, never the field itself,
so the state component is returned unchanged. -/
def handleResponseState (s : RebirthHttpProviderState) (response : HttpEvent)
    (request : Option HttpRequest) : HttpEvent × RebirthHttpProviderState :=
  (handleResponse s.interceptors response request, s)

/-- C10: calling handleRequest or handleResponse leaves the registered
interceptor list unchanged (same list as returned by getInterceptors
before the call), even though handleResponse internally processes a
reversed copy; the value results agree with the pure pipeline
functions applied to the registered list. -/
theorem claim_C10 (s : RebirthHttpProviderState) (req : HttpRequest)
    (response : HttpEvent) (request : Option HttpRequest) :
    getInterceptors (handleRequestState s req).2 = getInterceptors s ∧
    getInterceptors (handleResponseState s response request).2 = getInterceptors s ∧
    (handleRequestState s req).1 = handleRequest (getInterceptors s) req ∧
    (handleResponseState s response request).1 =
      handleResponse (getInterceptors s) response request :=
  ⟨rfl, rfl, rfl, rfl⟩

/-- Model of the instanceof HttpResponse and not ok test used by the
error interceptor guard. -/
def isErrorHttpResponse : HttpEvent → Bool
  | HttpEvent.response ok _ => !ok
  | _ => false

/-- Translation of the response wrapper installed by
addResponseErrorInterceptor. The source guards the call with
event instanceof HttpResponse and not event.ok, where event is the
ambient global DOM event (window.event) and NOT the response parameter
of the wrapper; globalEvent models that ambient value, none standing
for undefined, for which instanceof yields false. When the guard fails
the wrapper returns nothing (void). -/
def addResponseErrorInterceptorFn (globalEvent : Option HttpEvent)
    (fn : HttpEvent → Option HttpEvent) (response : HttpEvent) : Option HttpEvent :=
  if (match globalEvent with
      | some ev => isErrorHttpResponse ev
      | none => false) then
    some ((fn response).getD response)
  else
    none

/-- C3: the claim says the registered function runs exactly when the
response itself is a failed outcome. The code instead tests the ambient
global event variable: with no ambient DOM event, the wrapper returns
nothing on a response that IS a failed HttpResponse, for every
registered function, so the function never influences the output. -/
theorem claim_C3 (fn : HttpEvent → Option HttpEvent) :
    isErrorHttpResponse (HttpEvent.response false "boom") = true ∧
    addResponseErrorInterceptorFn none fn (HttpEvent.response false "boom") = none :=
  ⟨rfl, rfl⟩

/-- Translation of the anchored regular expression test for the http or
https scheme on the request url, carried out on the character list of
the string. -/
def startsWithHttpScheme (url : String) : Bool :=
  "http:".data.isPrefixOf url.data || "https:".data.isPrefixOf url.data

/-- Translation of host.replace of a single trailing slash by nothing,
carried out on the character list of the string. -/
def stripTrailingSlash (s : String) : String :=
  if s.data.getLast? = some '/' then String.mk s.data.dropLast else s

/-- Translation of url.replace of a single leading slash by nothing,
carried out on the character list of the string. -/
def stripLeadingSlash (s : String) : String :=
  match s.data with
  | c :: rest => if c = '/' then String.mk rest else s
  | [] => s

/-- Translation of the request interceptor registered by
RebirthHttpProvider.baseUrl: absolute urls and urls matching an exclude
pattern pass through; otherwise the url is rewritten to the host joined
to the path with one slash, stripping at most one trailing slash from
the host and at most one leading slash from the path. The exclude
regular expressions are modelled as their matching predicates. -/
def baseUrlRequestFn (host : String) (excludes : List (String → Bool))
    (request : HttpRequest) : HttpRequest :=
  if startsWithHttpScheme request.url then request
  else if excludes.any (fun t => t request.url) then request
  else { request with url := stripTrailingSlash host ++ "/" ++ stripLeadingSlash request.url }

/-- C4: the baseUrl interceptor leaves urls that begin with http: or
https: unchanged, leaves urls matching an exclude predicate unchanged,
and otherwise rewrites the url to host plus slash plus path with at most
one trailing slash stripped from the host and at most one leading slash
stripped from the path; the two closing conjuncts check the spec
examples, in particular the single slash at the join point. -/
theorem claim_C4 (host : String) (excludes : List (String → Bool)) (r : HttpRequest) :
    (baseUrlRequestFn host excludes r =
      if startsWithHttpScheme r.url then r
      else if excludes.any (fun t => t r.url) then r
      else { url := stripTrailingSlash host ++ "/" ++ stripLeadingSlash r.url,
             headers := r.headers }) ∧
    baseUrlRequestFn "http://api.test/" [] { url := "http://existing.com/x", headers := [] }
      = { url := "http://existing.com/x", headers := [] } ∧
    baseUrlRequestFn "http://api.test/" [] { url := "/users", headers := [] }
      = { url := "http://api.test/users", headers := [] } := by
  refine ⟨?_, by decide, by decide⟩
  unfold baseUrlRequestFn
  rfl

/-- Model of HttpHeaders.set, which is what clone with setHeaders
performs for each pair of the map: every existing value recorded for
the name is removed and the single given value is recorded instead. -/
def setHeader (hs : List (String × String)) (name value : String) :
    List (String × String) :=
  hs.filter (fun kv => kv.1 != name) ++ [(name, value)]

/-- Translation of the request interceptor registered by
RebirthHttpProvider.headers: the request is cloned with setHeaders
applied for each pair of the fixed map. -/
def headersRequestFn (map : List (String × String)) (request : HttpRequest) :
    HttpRequest :=
  { request with headers := map.foldl (fun hs kv => setHeader hs kv.1 kv.2) request.headers }

/-- Value recorded last for a name by a sequence of set calls, if any. -/
def lastSetValue : List (String × String) → String → Option String
  | [], _ => none
  | kv :: rest, name =>
      match lastSetValue rest name with
      | some v => some v
      | none => if kv.1 == name then some kv.2 else none

theorem filter_eq_of_filter_ne (hs : List (String × String)) (k : String) :
    (hs.filter (fun kv => kv.1 != k)).filter (fun kv => kv.1 == k) = [] := by
  induction hs with
  | nil => rfl
  | cons kv rest ih =>
      by_cases h : kv.1 = k
      · simp [List.filter_cons, h, ih]
      · simp [List.filter_cons, h, ih]

theorem filter_eq_of_filter_ne_other (hs : List (String × String)) (k name : String)
    (hk : ¬ k = name) :
    (hs.filter (fun kv => kv.1 != k)).filter (fun kv => kv.1 == name) =
      hs.filter (fun kv => kv.1 == name) := by
  induction hs with
  | nil => rfl
  | cons kv rest ih =>
      by_cases h : kv.1 = k
      · have hn : ¬ kv.1 = name := by
          rw [h]
          exact hk
        simp [List.filter_cons, h, hn, hk, ih]
      · simp [List.filter_cons, h, ih]

theorem filter_setHeader (hs : List (String × String)) (k v name : String) :
    (setHeader hs k v).filter (fun kv => kv.1 == name) =
      if k == name then [(k, v)] else hs.filter (fun kv => kv.1 == name) := by
  unfold setHeader
  rw [List.filter_append]
  by_cases hk : k = name
  · subst hk
    simp [List.filter_cons, filter_eq_of_filter_ne hs k]
  · simp [List.filter_cons, hk, filter_eq_of_filter_ne_other hs k name hk]

theorem foldl_setHeader_filter (map : List (String × String))
    (hs : List (String × String)) (name : String) :
    (map.foldl (fun acc kv => setHeader acc kv.1 kv.2) hs).filter
        (fun kv => kv.1 == name) =
      (match lastSetValue map name with
       | some v => [(name, v)]
       | none => hs.filter (fun kv => kv.1 == name)) := by
  induction map generalizing hs with
  | nil => rfl
  | cons kv rest ih =>
      rw [List.foldl_cons, ih (setHeader hs kv.1 kv.2)]
      cases hlast : lastSetValue rest name with
      | some v => simp [lastSetValue, hlast]
      | none =>
          simp only [lastSetValue, hlast]
          rw [filter_setHeader]
          by_cases h : kv.1 = name
          · simp [h]
          · simp [h]

/-- C5 counterexample: the claim says applying the headers interceptor
to a request that already carries an entry for the same header name
yields two entries; on the code the existing entry is replaced and
exactly one entry remains. -/
theorem claim_C5_counterexample :
    (headersRequestFn [("Authorization", "X")]
        { url := "/u", headers := [("Authorization", "Y")] }).headers
      = [("Authorization", "X")] ∧
    ((headersRequestFn [("Authorization", "X")]
        { url := "/u", headers := [("Authorization", "Y")] }).headers.filter
        (fun kv => kv.1 == "Authorization")).length = 1 := by
  constructor
  · decide
  · decide

/-- C5 amended: the headers interceptor sets each pair of the fixed map
on the outgoing request: the url is untouched, headers whose name is
never set by the map are preserved exactly, and a name set by the map
ends with exactly one entry carrying the last value the map records for
it, replacing any entry already present. -/
theorem claim_C5 (map : List (String × String)) (r : HttpRequest) (name : String) :
    (headersRequestFn map r).url = r.url ∧
    (headersRequestFn map r).headers.filter (fun kv => kv.1 == name) =
      (match lastSetValue map name with
       | some v => [(name, v)]
       | none => r.headers.filter (fun kv => kv.1 == name)) :=
  ⟨rfl, foldl_setHeader_filter map r.headers name⟩

/-- Model of HttpHeaders.append: it is a pure operation returning a
fresh object with the extra entry, leaving the receiver as it was. -/
def appendHeader (hs : List (String × String)) (name value : String) :
    List (String × String) :=
  hs ++ [(name, value)]

/-- Translation of the header assembly in methodBuilder: headers start
from the class default headers; the source then calls append for each
method level pair and each per call binding but never binds the
returned object (HttpHeaders is immutable), so the appended entries are
discarded and the defaults are what remains. -/
def methodBuilderHeaders (defaultHeaders methodHeadersDef headerBindings :
    List (String × String)) : List (String × String) :=
  let headers := defaultHeaders
  let _ := methodHeadersDef.map (fun kv => appendHeader headers kv.1 kv.2)
  let _ := headerBindings.map (fun kv => appendHeader headers kv.1 kv.2)
  headers

/-- C6: the claim says the method level fixed headers and the per call
Header bindings are added to the header set after the class defaults;
evaluating the code at a concrete call shows both stages are lost and
only the class defaults survive, because the immutable append results
are discarded. -/
theorem claim_C6 :
    methodBuilderHeaders [("X-Default", "d")] [("Accept", "application/json")]
        [("Authorization", "token")] = [("X-Default", "d")] ∧
    ¬ (("Accept", "application/json") ∈
        methodBuilderHeaders [("X-Default", "d")] [("Accept", "application/json")]
          [("Authorization", "token")]) ∧
    ¬ (("Authorization", "token") ∈
        methodBuilderHeaders [("X-Default", "d")] [("Accept", "application/json")]
          [("Authorization", "token")]) := by
  refine ⟨rfl, by decide, by decide⟩

/-- Model of the JavaScript values a Query argument can take; a date
carries its epoch millisecond count. -/
inductive QueryValue where
  | undef : QueryValue
  | null : QueryValue
  | str : String → QueryValue
  | int : Int → QueryValue
  | bool : Bool → QueryValue
  | date : Int → QueryValue
  | arr : List QueryValue → QueryValue
  | obj : List (String × QueryValue) → QueryValue

/-- Translation of the helper isUndefined: typeof value is undefined. -/
def isUndefined : QueryValue → Bool
  | QueryValue.undef => true
  | _ => false

/-- Translation of the helper isEmpty: value is undefined or null. -/
def isEmpty : QueryValue → Bool
  | QueryValue.undef => true
  | QueryValue.null => true
  | _ => false

/-- Translation of the helper isObject: value is not null and typeof
value is object, which holds for dates, arrays and keyed objects. -/
def isObject : QueryValue → Bool
  | QueryValue.date _ => true
  | QueryValue.arr _ => true
  | QueryValue.obj _ => true
  | _ => false

/-- Model of the instanceof Date test. -/
def isDate : QueryValue → Bool
  | QueryValue.date _ => true
  | _ => false

/-- Model of the Array.isArray test. -/
def isArray : QueryValue → Bool
  | QueryValue.arr _ => true
  | _ => false

/-- String coercion as the query builder uses it; for a date the source
calls getTime first, so the coercion of a date is its millisecond count,
and the array and object cases never reach this coercion in the builder
because earlier branches handle them. -/
def jsToString : QueryValue → String
  | QueryValue.undef => "undefined"
  | QueryValue.null => "null"
  | QueryValue.str s => s
  | QueryValue.int n => toString n
  | QueryValue.bool b => if b then "true" else "false"
  | QueryValue.date m => toString m
  | QueryValue.arr _ => ""
  | QueryValue.obj _ => "[object Object]"

/-- Model of how Array.prototype.join coerces one element: null and
undefined become empty strings. -/
def jsJoinElem : QueryValue → String
  | QueryValue.undef => ""
  | QueryValue.null => ""
  | v => jsToString v

/-- Model of value.map of the identity followed by join with a comma. -/
def jsArrayJoinComma (xs : List QueryValue) : String :=
  String.intercalate "," (xs.map jsJoinElem)

/-- Elements of an array value. -/
def arrElems : QueryValue → List QueryValue
  | QueryValue.arr xs => xs
  | _ => []

/-- Own key value pairs of a keyed object value. -/
def objFields : QueryValue → List (String × QueryValue)
  | QueryValue.obj fs => fs
  | _ => []

/-- Model of HttpParams.set: the values recorded for the key are
replaced by the single given value; modelled on an ordered list. -/
def paramsSet (ps : List (String × String)) (k v : String) :
    List (String × String) :=
  ps.filter (fun kv => kv.1 != k) ++ [(k, v)]

/-- Translation of the body of the query reduce in methodBuilder: a
date is encoded as its epoch millisecond string; an array is joined
with commas; a keyed object is flattened over its own keys, and in the
source each flattening step assigns result from ps.set rather than
result.set, so only the last own key survives; a remaining nonempty
value is set by its string coercion; a remaining empty value (null at
this point) is set with the empty string. -/
def queryReduceStep (ps : List (String × String)) (key : String)
    (value : QueryValue) : List (String × String) :=
  if isDate value then
    paramsSet ps key (jsToString value)
  else if isArray value then
    paramsSet ps key (jsArrayJoinComma (arrElems value))
  else if isObject value then
    (objFields value).foldl (fun _ kv => paramsSet ps kv.1 (jsToString kv.2)) ps
  else if !(isEmpty value) then
    paramsSet ps key (jsToString value)
  else
    paramsSet ps key ""

/-- Translation of the Query section of methodBuilder: bindings whose
argument is undefined are filtered out, then the remaining bindings are
reduced over the empty HttpParams. -/
def buildQueryParams (pQuery : List (String × QueryValue)) :
    List (String × String) :=
  (pQuery.filter (fun p => !(isUndefined p.2))).foldl
    (fun ps p => queryReduceStep ps p.1 p.2) []

/-- C7 counterexample: the claim says a null argument counts as absent
and is omitted from the query map; on the code only undefined is
filtered out, and a null argument produces an entry with the empty
value. -/
theorem claim_C7_counterexample :
    buildQueryParams [("q", QueryValue.null)] = [("q", "")] ∧
    ¬ buildQueryParams [("q", QueryValue.null)] = [] := by
  constructor
  · rfl
  · decide

/-- C7 amended: a Query binding with an undefined argument is omitted
entirely from the resulting query map; a binding whose argument is null
or the empty string is present and sets its key to the empty value. -/
theorem claim_C7 (pre : List (String × QueryValue)) (key : String) :
    buildQueryParams (pre ++ [(key, QueryValue.undef)]) = buildQueryParams pre ∧
    buildQueryParams (pre ++ [(key, QueryValue.null)]) =
      paramsSet (buildQueryParams pre) key "" ∧
    buildQueryParams (pre ++ [(key, QueryValue.str "")]) =
      paramsSet (buildQueryParams pre) key "" := by
  refine ⟨?_, ?_, ?_⟩ <;>
    · unfold buildQueryParams
      rw [List.filter_append, List.foldl_append]
      rfl

/-- C8: the claim says a keyed object argument is flattened so each of
its own keys becomes an individual query parameter; evaluating the code
on the object with keys a and b shows only the last key survives,
because each flattening step overwrites the accumulated parameters with
a set applied to the parameters from before the object. -/
theorem claim_C8 :
    buildQueryParams
        [("key", QueryValue.obj [("a", QueryValue.int 1), ("b", QueryValue.int 2)])]
      = [("b", "2")] ∧
    ¬ buildQueryParams
        [("key", QueryValue.obj [("a", QueryValue.int 1), ("b", QueryValue.int 2)])]
      = [("a", "1"), ("b", "2")] := by
  constructor
  · rfl
  · decide

/-- Parameter roles a binding can declare. -/
inductive ParamRole where
  | path : ParamRole
  | query : ParamRole
  | body : ParamRole
  | header : ParamRole
  deriving Repr, DecidableEq, BEq

/-- Name string the source passes to paramBuilder for each role. -/
def roleName : ParamRole → String
  | ParamRole.path => "Path"
  | ParamRole.query => "Query"
  | ParamRole.body => "Body"
  | ParamRole.header => "Header"

/-- Optional flag the source passes to paramBuilder: true only for the
Query role. -/
def roleOptional : ParamRole → Bool
  | ParamRole.query => true
  | _ => false

/-- JavaScript falsiness of the key argument: undefined and the empty
string are falsy. -/
def keyFalsy : Option String → Bool
  | none => true
  | some k => k.isEmpty

/-- Metadata object pushed for one binding. -/
structure ParamBindingMeta where
  key : Option String
  parameterIndex : Nat
  deriving Repr, DecidableEq

/-- Translation of paramBuilder applied to a key: when the role is not
optional and the key is falsy, a construction time error is thrown;
otherwise the declaration succeeds with the registration function that
appends the binding metadata to the list collected for the method. -/
def paramBuilderApply (role : ParamRole) (key : Option String) :
    Except String (List ParamBindingMeta → Nat → List ParamBindingMeta) :=
  if !(roleOptional role) && keyFalsy key then
    Except.error (roleName role ++ " Key is required!")
  else
    Except.ok (fun metadata parameterIndex =>
      metadata ++ [{ key := key, parameterIndex := parameterIndex }])

/-- Whether a declaration succeeded. -/
def declarationSucceeds {α : Type} : Except String α → Bool
  | Except.ok _ => true
  | Except.error _ => false

/-- Message of a thrown declaration error, if any. -/
def thrownMessage {α : Type} : Except String α → Option String
  | Except.ok _ => none
  | Except.error s => some s

/-- C9: applying a parameter decorator with no key succeeds exactly for
the Query role; Path and Header throw their construction time errors. -/
theorem claim_C9 (role : ParamRole) :
    declarationSucceeds (paramBuilderApply role none) = (role == ParamRole.query) ∧
    thrownMessage (paramBuilderApply ParamRole.path none)
      = some "Path Key is required!" ∧
    thrownMessage (paramBuilderApply ParamRole.header none)
      = some "Header Key is required!" := by
  refine ⟨?_, by decide, by decide⟩
  cases role <;> rfl
